import Mathlib

/-!
Verification of the AegisAI analysis → risk → alert pipeline and its
selective semantic subsystem.  The repository ships `main.py` (the pipeline
orchestration) together with its unit tests; the `aegis.*` component modules
themselves (risk engine, alert manager, semantic trigger, prompt manager,
semantic fusion) are declared and exercised by the tests but their sources are
not part of the tree, so those components are modelled here from the
specification, while `build_config` and the per-frame alert loop are shallow
embeddings of `main.py`.  Scores, timestamps and confidences are modelled as
rationals.
-/

namespace AegisAI

/-- Kinematic state derived per identity (spec §3 MotionState). -/
structure MotionState where
  speed : ℚ := 0
  smoothed_speed : ℚ := 0
  velocity : ℚ × ℚ := (0, 0)
  direction : ℚ := 0
  acceleration : ℚ := 0
  is_stationary : Bool := true
deriving Repr, DecidableEq

/-- Behavioral flags plus numeric context (spec §3 BehaviorFlags). -/
structure BehaviorFlags where
  is_stationary : Bool := false
  is_loitering : Bool := false
  is_running : Bool := false
  sudden_speed_change : Bool := false
  direction_reversal : Bool := false
  is_erratic : Bool := false
  stationary_duration : ℚ := 0
  direction_variance : ℚ := 0
deriving Repr, DecidableEq

/-- `has_anomaly` ≔ any of loitering, sudden speed change, direction reversal,
erratic (spec §3). -/
def BehaviorFlags.has_anomaly (b : BehaviorFlags) : Bool :=
  b.is_loitering || b.sudden_speed_change || b.direction_reversal || b.is_erratic

/-- Per-frame crowd statistics (spec §3 CrowdMetrics).  Grid densities are an
association list from grid cell to count. -/
structure CrowdMetrics where
  person_count : ℕ := 0
  vehicle_count : ℕ := 0
  grid_densities : List ((ℤ × ℤ) × ℕ) := []
  max_density : ℕ := 0
  crowd_detected : Bool := false
deriving Repr, DecidableEq

/-- Immutable per-frame analysis snapshot of one identity (spec §3
TrackAnalysis). -/
structure TrackAnalysis where
  track_id : ℕ
  class_id : ℕ := 0
  class_name : String := "Person"
  motion : MotionState := {}
  behavior : BehaviorFlags := {}
  history_length : ℕ := 0
  time_tracked : ℚ := 0
  current_position : ℚ × ℚ := (0, 0)
  current_bbox : ℤ × ℤ × ℤ × ℤ := (0, 0, 0, 0)
deriving Repr, DecidableEq

/-- The four risk levels (spec §3 RiskScore). -/
inductive RiskLevel where
  | LOW
  | MEDIUM
  | HIGH
  | CRITICAL
deriving Repr, DecidableEq

/-- Numeric rank of a level, used for the ordering LOW < MEDIUM < HIGH <
CRITICAL. -/
def RiskLevel.rank : RiskLevel → ℕ
  | .LOW => 0
  | .MEDIUM => 1
  | .HIGH => 2
  | .CRITICAL => 3

/-- String value of a level, as used by the Python enum. -/
def RiskLevel.value : RiskLevel → String
  | .LOW => "LOW"
  | .MEDIUM => "MEDIUM"
  | .HIGH => "HIGH"
  | .CRITICAL => "CRITICAL"

/-- Level thresholds; defaults `{0.25, 0.50, 0.75}` (spec §4.5, conftest
fixture `risk_thresholds`). -/
structure RiskThresholds where
  medium : ℚ := 1/4
  high : ℚ := 1/2
  critical : ℚ := 3/4
deriving Repr, DecidableEq

/-- Modelled from the spec: `RiskLevel.from_score` of the absent `aegis.risk`
module.  LOW if score < medium; MEDIUM if < high; HIGH if < critical; else
CRITICAL; ties resolve to the higher level (spec §4.5 level mapping). -/
def RiskLevel.from_score (t : RiskThresholds) (s : ℚ) : RiskLevel :=
  if s < t.medium then .LOW
  else if s < t.high then .MEDIUM
  else if s < t.critical then .HIGH
  else .CRITICAL

/-- Factor weights; defaults from the fixtures (spec §4.5, conftest
`risk_weights`). -/
structure RiskWeights where
  loitering : ℚ := 1/4
  speed_anomaly : ℚ := 9/50
  direction_change : ℚ := 3/20
  crowd_density : ℚ := 3/25
  zone_context : ℚ := 3/20
  erratic_motion : ℚ := 1/10
deriving Repr, DecidableEq

/-- Temporal EMA parameters; defaults escalation 0.3, decay 0.1 (spec §4.5). -/
structure TemporalConfig where
  escalation_rate : ℚ := 3/10
  decay_rate : ℚ := 1/10
deriving Repr, DecidableEq

/-- A risk zone with an axis-aligned rectangle and a risk weight
(spec §4.5 zone_context). -/
structure Zone where
  x1 : ℚ
  y1 : ℚ
  x2 : ℚ
  y2 : ℚ
  risk_weight : ℚ
deriving Repr, DecidableEq

/-- Whether a zone contains a point. -/
def Zone.contains (z : Zone) (p : ℚ × ℚ) : Bool :=
  decide (z.x1 ≤ p.1) && decide (p.1 ≤ z.x2) &&
  decide (z.y1 ≤ p.2) && decide (p.2 ≤ z.y2)

/-- Modelled from the spec: risk engine configuration of the absent
`aegis.risk` module (spec §4.5, §6 configuration surface). -/
structure RiskEngineConfig where
  weights : RiskWeights := {}
  thresholds : RiskThresholds := {}
  temporal : TemporalConfig := {}
  use_zones : Bool := false
  use_temporal : Bool := false
  zones : List Zone := []
  loitering_time_threshold : ℚ := 5
  erratic_variance_threshold : ℚ := 1
  crowd_density_threshold : ℚ := 5
  grid_cell_size : ℤ := 100
deriving Repr, DecidableEq

/-- One explanation factor entry (spec §3 RiskScore, §4.5 explainability). -/
structure Factor where
  name : String
  display_name : String
  contribution : ℚ
  description : String
deriving Repr, DecidableEq

/-- Risk explanation: summary prose plus factor entries (spec §3). -/
structure RiskExplanation where
  summary : String
  factors : List Factor
deriving Repr, DecidableEq

/-- Bounded per-track risk record (spec §3 RiskScore). -/
structure RiskScore where
  track_id : ℕ
  score : ℚ
  level : RiskLevel
  explanation : RiskExplanation
  is_concerning : Bool
deriving Repr, DecidableEq

/-- Frame-level aggregation (spec §3 FrameRiskSummary). -/
structure FrameRiskSummary where
  frame_id : ℕ
  timestamp : ℚ
  track_risks : List RiskScore
  max_risk_level : RiskLevel
  max_risk_score : ℚ
  concerning_tracks : ℕ
  has_concerns : Bool
deriving Repr, DecidableEq

/-- Clamp a rational to the closed interval [0,1]. -/
def clamp01 (x : ℚ) : ℚ := min 1 (max 0 x)

/-- Modelled from the spec: loitering factor of the absent risk engine —
linear ramp from 0 at 0 s to 1 at 2·loitering_threshold, 0 if not loitering
(spec §4.5 factor table). -/
def loiteringFactor (cfg : RiskEngineConfig) (T : TrackAnalysis) : ℚ :=
  if T.behavior.is_loitering then
    clamp01 (T.behavior.stationary_duration / (2 * cfg.loitering_time_threshold))
  else 0

/-- Modelled from the spec: speed-anomaly factor of the absent risk engine —
1 if `sudden_speed_change` OR `is_running`, else 0; the acceleration boost of
the factor table is absorbed by the clip to 1 on a flagged track and the
unflagged value is 0 (spec §4.5 factor table). -/
def speedAnomalyFactor (T : TrackAnalysis) : ℚ :=
  if T.behavior.sudden_speed_change || T.behavior.is_running then 1 else 0

/-- Modelled from the spec: direction-change factor of the absent risk
engine — 1 if `direction_reversal`, else
`min(1, direction_variance / erratic_variance_threshold)`
(spec §4.5 factor table). -/
def directionChangeFactor (cfg : RiskEngineConfig) (T : TrackAnalysis) : ℚ :=
  if T.behavior.direction_reversal then 1
  else clamp01 (T.behavior.direction_variance / cfg.erratic_variance_threshold)

/-- The grid cell containing a position, at the configured cell size. -/
def gridCellOf (cfg : RiskEngineConfig) (p : ℚ × ℚ) : ℤ × ℤ :=
  (⌊p.1 / (cfg.grid_cell_size : ℚ)⌋, ⌊p.2 / (cfg.grid_cell_size : ℚ)⌋)

/-- Density of the grid cell around a position, 0 when the cell is absent. -/
def localDensity (cfg : RiskEngineConfig) (C : CrowdMetrics) (p : ℚ × ℚ) : ℕ :=
  match C.grid_densities.lookup (gridCellOf cfg p) with
  | some n => n
  | none => 0

/-- Modelled from the spec: crowd-density factor of the absent risk engine —
`min(1, local_density / crowd_density_threshold)` at the track's position
(spec §4.5 factor table). -/
def crowdDensityFactor (cfg : RiskEngineConfig) (C : CrowdMetrics)
    (T : TrackAnalysis) : ℚ :=
  clamp01 ((localDensity cfg C T.current_position : ℚ) / cfg.crowd_density_threshold)

/-- First zone containing a point, if any. -/
def zoneAt (zones : List Zone) (p : ℚ × ℚ) : Option Zone :=
  zones.find? (fun z => z.contains p)

/-- Modelled from the spec: zone-context factor of the absent risk engine —
the containing zone's risk weight, 0 when zones are disabled or no zone
contains the position (spec §4.5 factor table). -/
def zoneContextFactor (cfg : RiskEngineConfig) (T : TrackAnalysis) : ℚ :=
  if cfg.use_zones then
    match zoneAt cfg.zones T.current_position with
    | some z => z.risk_weight
    | none => 0
  else 0

/-- Modelled from the spec: erratic-motion factor of the absent risk engine —
1 if `is_erratic`, else
`min(1, direction_variance / 2·erratic_variance_threshold)`
(spec §4.5 factor table). -/
def erraticMotionFactor (cfg : RiskEngineConfig) (T : TrackAnalysis) : ℚ :=
  if T.behavior.is_erratic then 1
  else clamp01 (T.behavior.direction_variance / (2 * cfg.erratic_variance_threshold))

/-- Modelled from the spec: the raw weighted sum Σ wᵢ·fᵢ of the absent risk
engine, clamped to [0,1] (spec §4.5 raw score). -/
def rawScore (cfg : RiskEngineConfig) (T : TrackAnalysis) (C : CrowdMetrics) : ℚ :=
  clamp01 (cfg.weights.loitering * loiteringFactor cfg T
    + cfg.weights.speed_anomaly * speedAnomalyFactor T
    + cfg.weights.direction_change * directionChangeFactor cfg T
    + cfg.weights.crowd_density * crowdDensityFactor cfg C T
    + cfg.weights.zone_context * zoneContextFactor cfg T
    + cfg.weights.erratic_motion * erraticMotionFactor cfg T)

/-- Modelled from the spec: asymmetric EMA update of the absent risk engine —
escalate towards a higher raw value, decay towards a lower one (spec §4.5
temporal smoothing). -/
def emaUpdate (tc : TemporalConfig) (s raw : ℚ) : ℚ :=
  if s < raw then s + tc.escalation_rate * (raw - s)
  else s - tc.decay_rate * (s - raw)

/-- Modelled from the spec: the smoothed score — the EMA update of the prior
per-identity state when temporal smoothing is on (a fresh identity starts at
the raw value), the raw value otherwise (spec §4.5 temporal smoothing). -/
def smoothedScore (cfg : RiskEngineConfig) (prior : Option ℚ) (raw : ℚ) : ℚ :=
  if cfg.use_temporal then
    match prior with
    | some s => emaUpdate cfg.temporal s raw
    | none => raw
  else raw

/-- Modelled from the spec: the candidate factor entries, in the fixed
alphabetical order of factor names (spec §4.5 explainability and
determinism). -/
def factorCandidates (cfg : RiskEngineConfig) (T : TrackAnalysis)
    (C : CrowdMetrics) : List Factor :=
  [⟨"crowd_density", "Crowd Density",
       cfg.weights.crowd_density * crowdDensityFactor cfg C T,
       "High local crowd density"⟩,
     ⟨"direction_change", "Direction Change",
       cfg.weights.direction_change * directionChangeFactor cfg T,
       "Sudden direction reversal"⟩,
     ⟨"erratic_motion", "Erratic Motion",
       cfg.weights.erratic_motion * erraticMotionFactor cfg T,
       "Erratic movement pattern"⟩,
     ⟨"loitering", "Loitering",
       cfg.weights.loitering * loiteringFactor cfg T,
       "Sustained loitering"⟩,
     ⟨"speed_anomaly", "Speed Anomaly",
       cfg.weights.speed_anomaly * speedAnomalyFactor T,
       "Sudden speed change detected"⟩,
   ⟨"zone_context", "Zone Context",
     cfg.weights.zone_context * zoneContextFactor cfg T,
     "Inside a weighted risk zone"⟩]

/-- Modelled from the spec: the factor entries of the explanation — one per
non-zero candidate factor, keeping the alphabetical name order
(spec §4.5 explainability). -/
def factorEntries (cfg : RiskEngineConfig) (T : TrackAnalysis)
    (C : CrowdMetrics) : List Factor :=
  (factorCandidates cfg T C).filter (fun f => f.contribution ≠ 0)

/-- Insert a factor into a list kept in descending contribution order. -/
def insertByContribution (f : Factor) : List Factor → List Factor
  | [] => [f]
  | g :: gs =>
    if g.contribution ≤ f.contribution then f :: g :: gs
    else g :: insertByContribution f gs

/-- Sort factors by descending contribution (insertion sort). -/
def sortByContribution (fs : List Factor) : List Factor :=
  fs.foldr insertByContribution []

/-- Modelled from the spec: summary prose of the absent risk engine — the top
two factors by descending contribution, or "Normal behavior." when no factor
contributes (spec §4.5 explainability). -/
def summaryText (fs : List Factor) : String :=
  match fs with
  | [] => "Normal behavior."
  | _ => String.intercalate "; " (((sortByContribution fs).take 2).map
      (fun f => f.description))

/-- Modelled from the spec: `RiskEngine.compute_risk` of the absent
`aegis.risk` module.  Computes the clamped weighted score, applies optional
temporal smoothing against the prior per-identity EMA state, maps the score
to a level, and builds the deterministic explanation (spec §4.5). -/
def compute_risk (cfg : RiskEngineConfig) (prior : Option ℚ)
    (T : TrackAnalysis) (C : CrowdMetrics) : RiskScore :=
  let s := smoothedScore cfg prior (rawScore cfg T C)
  let lvl := RiskLevel.from_score cfg.thresholds s
  let fs := factorEntries cfg T C
  { track_id := T.track_id
    score := s
    level := lvl
    explanation := { summary := summaryText fs, factors := fs }
    is_concerning := decide (1 ≤ lvl.rank) }

/-- Per-identity EMA state of the engine, as an association list. -/
def priorOf (st : List (ℕ × ℚ)) (tid : ℕ) : Option ℚ := st.lookup tid

/-- Maximum of two levels by rank. -/
def RiskLevel.maxLevel (a b : RiskLevel) : RiskLevel :=
  if a.rank ≤ b.rank then b else a

/-- Modelled from the spec: `RiskEngine.compute_frame_risks` of the absent
`aegis.risk` module — one RiskScore per input track, aggregated maxima and
the count of concerning tracks (spec §4.5 frame-level). -/
def compute_frame_risks (cfg : RiskEngineConfig) (st : List (ℕ × ℚ))
    (tracks : List TrackAnalysis) (C : CrowdMetrics)
    (frame_id : ℕ) (timestamp : ℚ) : FrameRiskSummary :=
  let risks := tracks.map (fun T => compute_risk cfg (priorOf st T.track_id) T C)
  { frame_id := frame_id
    timestamp := timestamp
    track_risks := risks
    max_risk_level := (risks.map (fun r => r.level)).foldr RiskLevel.maxLevel .LOW
    max_risk_score := (risks.map (fun r => r.score)).foldr max 0
    concerning_tracks := risks.countP (fun r => 1 ≤ r.level.rank)
    has_concerns := risks.any (fun r => r.is_concerning) }

/-- The four alert levels (spec §4.6). -/
inductive AlertLevel where
  | INFO
  | WARNING
  | HIGH
  | CRITICAL
deriving Repr, DecidableEq

/-- Priority of an alert level, INFO < WARNING < HIGH < CRITICAL. -/
def AlertLevel.priority : AlertLevel → ℕ
  | .INFO => 1
  | .WARNING => 2
  | .HIGH => 3
  | .CRITICAL => 4

/-- Modelled from the spec: `AlertLevel.from_risk_level` of the absent
`aegis.alerts` module — LOW→INFO, MEDIUM→WARNING, HIGH→HIGH,
CRITICAL→CRITICAL (spec §4.6). -/
def AlertLevel.from_risk_level : RiskLevel → AlertLevel
  | .LOW => .INFO
  | .MEDIUM => .WARNING
  | .HIGH => .HIGH
  | .CRITICAL => .CRITICAL

/-- An operator alert record (spec §3 Alert). -/
structure Alert where
  event_id : String
  track_id : ℕ
  level : AlertLevel
  risk_score : ℚ
  message : String
  zone : String
  factors : List String
  t_created : ℚ
deriving Repr, DecidableEq

/-- Modelled from the spec: configuration of the absent `aegis.alerts`
manager (spec §4.6, §6 configuration surface). -/
structure AlertManagerConfig where
  enabled : Bool := true
  min_level : AlertLevel := .INFO
  cooldown_seconds : ℚ := 10
deriving Repr, DecidableEq

/-- Modelled from the spec: alert manager state — configuration,
per-identity last-emitted time, running alert count and the monotonic
event-id suffix (spec §4.6). -/
structure AlertManager where
  config : AlertManagerConfig := {}
  last_alert : List (ℕ × ℚ) := []
  alert_count : ℕ := 0
  next_event : ℕ := 0
deriving Repr, DecidableEq

/-- Whether the cooldown admits an alert for this identity at time `now`:
either no prior alert exists, or at least `cooldown_seconds` elapsed. -/
def cooldownOk (mgr : AlertManager) (tid : ℕ) (now : ℚ) : Bool :=
  match mgr.last_alert.lookup tid with
  | none => true
  | some t => decide (mgr.config.cooldown_seconds ≤ now - t)

/-- Record an emission time for an identity, replacing any prior entry. -/
def recordAlert (m : List (ℕ × ℚ)) (tid : ℕ) (now : ℚ) : List (ℕ × ℚ) :=
  (tid, now) :: m.filter (fun e => e.1 ≠ tid)

/-- Modelled from the spec: `AlertManager.process_risk` of the absent
`aegis.alerts` module.  Emits an Alert only when the manager is enabled, the
mapped alert level's priority reaches `min_level`, and the per-identity
cooldown admits it; otherwise returns none and leaves the state unchanged
(spec §4.6). -/
def process_risk (mgr : AlertManager) (tid : ℕ) (risk_level : RiskLevel)
    (risk_score : ℚ) (message zone : String) (factors : List String)
    (now : ℚ) : Option Alert × AlertManager :=
  if !mgr.config.enabled then (none, mgr)
  else
    let lvl := AlertLevel.from_risk_level risk_level
    if lvl.priority < mgr.config.min_level.priority then (none, mgr)
    else if !cooldownOk mgr tid now then (none, mgr)
    else
      let a : Alert :=
        { event_id := "evt_" ++ toString mgr.next_event
          track_id := tid
          level := lvl
          risk_score := risk_score
          message := message
          zone := zone
          factors := factors
          t_created := now }
      (some a,
        { mgr with
            last_alert := recordAlert mgr.last_alert tid now
            alert_count := mgr.alert_count + 1
            next_event := mgr.next_event + 1 })

/-- Trigger sources, in descending priority (spec §4.7). -/
inductive TriggerType where
  | USER_QUERY
  | RISK_THRESHOLD
  | BEHAVIOR_CHANGE
deriving Repr, DecidableEq

/-- A frame, abstracted to its pixel extent for crop clamping. -/
structure Frame where
  width : ℤ
  height : ℤ
deriving Repr, DecidableEq

/-- A decision to invoke the semantic backend on one crop (spec §4.7). -/
structure TriggerEvent where
  track_id : ℕ
  trigger_type : TriggerType
  prompt : String
  cropped_bbox : ℤ × ℤ × ℤ × ℤ
deriving Repr, DecidableEq

/-- Modelled from the spec: semantic trigger configuration of the absent
`aegis.semantic` module (spec §4.7, §6). -/
structure SemanticTriggerConfig where
  risk_threshold_trigger : ℚ := 3/5
  trigger_cooldown_seconds : ℚ := 2
deriving Repr, DecidableEq

/-- Clamp a bbox to frame bounds (spec §4.7 cropping). -/
def clampBBox (f : Frame) (b : ℤ × ℤ × ℤ × ℤ) : ℤ × ℤ × ℤ × ℤ :=
  (max 0 (min b.1 f.width), max 0 (min b.2.1 f.height),
   max 0 (min b.2.2.1 f.width), max 0 (min b.2.2.2 f.height))

/-- Risk score recorded for an identity in a frame summary, 0 if absent. -/
def riskScoreFor (fr : FrameRiskSummary) (tid : ℕ) : ℚ :=
  match fr.track_risks.find? (fun r => r.track_id = tid) with
  | some r => r.score
  | none => 0

/-- Modelled from the spec: behavior-derived prompt of the absent semantic
trigger (spec §4.7 BEHAVIOR_CHANGE source). -/
def behaviorPrompt (b : BehaviorFlags) : String :=
  if b.is_loitering then "person loitering"
  else if b.sudden_speed_change then "person moving suddenly"
  else if b.direction_reversal then "person reversing direction"
  else "person moving erratically"

/-- Modelled from the spec: the non-query trigger sources in descending
priority — RISK_THRESHOLD when the risk score reaches the threshold, else
BEHAVIOR_CHANGE on a flagged behavior, else no trigger (spec §4.7). -/
def triggerNoQuery (cfg : SemanticTriggerConfig) (fr : FrameRiskSummary)
    (T : TrackAnalysis) (crop : ℤ × ℤ × ℤ × ℤ) : Option TriggerEvent :=
  if cfg.risk_threshold_trigger ≤ riskScoreFor fr T.track_id then
    some ⟨T.track_id, .RISK_THRESHOLD, "suspicious activity", crop⟩
  else if T.behavior.is_loitering || T.behavior.sudden_speed_change
      || T.behavior.direction_reversal || T.behavior.is_erratic then
    some ⟨T.track_id, .BEHAVIOR_CHANGE, behaviorPrompt T.behavior, crop⟩
  else none

/-- Modelled from the spec: the single trigger decision for one track —
USER_QUERY on any non-empty query, else the non-query sources
(spec §4.7 descending priority). -/
def triggerFor (cfg : SemanticTriggerConfig) (f : Frame)
    (fr : FrameRiskSummary) (user_query : Option String)
    (T : TrackAnalysis) : Option TriggerEvent :=
  let crop := clampBBox f T.current_bbox
  match user_query with
  | some q =>
    if q ≠ "" then
      some ⟨T.track_id, .USER_QUERY, q, crop⟩
    else triggerNoQuery cfg fr T crop
  | none => triggerNoQuery cfg fr T crop

/-- Modelled from the spec: `SemanticTrigger.check_triggers` of the absent
`aegis.semantic` module.  Returns an empty list when no frame is supplied;
otherwise walks the live tracks, suppressing identities inside the
per-identity cooldown and recording the trigger time of each emitted event
(spec §4.7).  `checkTriggerStep` is the loop body for one track. -/
def checkTriggerStep (cfg : SemanticTriggerConfig) (f : Frame)
    (risk_scores : FrameRiskSummary) (user_query : Option String) (now : ℚ)
    (acc : List TriggerEvent × List (ℕ × ℚ)) (T : TrackAnalysis) :
    List TriggerEvent × List (ℕ × ℚ) :=
  let suppressed :=
    match acc.2.lookup T.track_id with
    | some t => decide (now - t < cfg.trigger_cooldown_seconds)
    | none => false
  if suppressed then acc
  else
    match triggerFor cfg f risk_scores user_query T with
    | some e => (acc.1 ++ [e], (T.track_id, now) :: acc.2)
    | none => acc

/-- Modelled from the spec: `SemanticTrigger.check_triggers` — an empty list
when no frame is supplied, otherwise the fold of `checkTriggerStep` over the
live tracks starting from no events and the current cooldown state
(spec §4.7). -/
def check_triggers (cfg : SemanticTriggerConfig) (st : List (ℕ × ℚ))
    (tracks : List TrackAnalysis) (risk_scores : FrameRiskSummary)
    (user_query : Option String) (frame : Option Frame) (now : ℚ) :
    List TriggerEvent × List (ℕ × ℚ) :=
  match frame with
  | none => ([], st)
  | some f =>
    tracks.foldl (checkTriggerStep cfg f risk_scores user_query now) ([], st)

/-- An open-vocabulary detection returned by the semantic backend
(test suite `SemanticDetection`). -/
structure SemanticDetection where
  bbox : ℤ × ℤ × ℤ × ℤ
  confidence : ℚ
  phrase : String
  matched_text : String
deriving Repr, DecidableEq

/-- A TTL-bounded cache entry (spec §3 PromptCacheEntry, test `CacheEntry`). -/
structure CacheEntry where
  result : List SemanticDetection
  timestamp : ℚ
deriving Repr, DecidableEq

/-- Modelled from the spec: `CacheEntry.is_expired` of the absent
`aegis.semantic.prompt_manager` — an entry is expired once its age exceeds
the TTL (test `TestCacheEntry`). -/
def CacheEntry.is_expired (e : CacheEntry) (ttl now : ℚ) : Bool :=
  decide (ttl < now - e.timestamp)

/-- Modelled from the spec: the prompt/result cache of the absent
`PromptManager`, keyed by `(prompt_text, image_hash)` with a TTL and a size
bound (spec §4.9). -/
structure PromptManager where
  cache : List ((String × String) × CacheEntry) := []
  cache_ttl : ℚ := 300
  max_cache_size : ℕ := 1000
deriving Repr, DecidableEq

/-- Modelled from the spec: `PromptManager.cache_result` — store the
detections under `(prompt, image_hash)` at the current time, replacing any
prior entry for the key and trimming to the size bound (spec §4.9). -/
def cache_result (m : PromptManager) (p h : String)
    (v : List SemanticDetection) (now : ℚ) : PromptManager :=
  let entry : CacheEntry := { result := v, timestamp := now }
  let pruned := m.cache.filter (fun e => e.1 ≠ (p, h))
  { m with cache := (((p, h), entry) :: pruned).take m.max_cache_size }

/-- Modelled from the spec: `PromptManager.get_cached_result` — return the
stored detections for `(prompt, image_hash)` unless the key is absent or the
entry's age exceeds the TTL (spec §4.9). -/
def get_cached_result (m : PromptManager) (p h : String) (now : ℚ) :
    Option (List SemanticDetection) :=
  match m.cache.lookup (p, h) with
  | some e => if e.is_expired m.cache_ttl now then none else some e.result
  | none => none

/-- A raw tracker record as consumed by fusion (spec §6 upstream Track). -/
structure Track where
  track_id : ℕ
  class_id : ℕ := 0
  class_name : String := "Person"
  bbox : ℤ × ℤ × ℤ × ℤ := (0, 0, 0, 0)
  confidence : ℚ := 0
deriving Repr, DecidableEq

/-- The late-fused record (spec §3 UnifiedObject, test
`UnifiedObjectIntelligence`). -/
structure UnifiedObjectIntelligence where
  track_id : ℕ
  base_class : String
  confidence : ℚ
  semantic_label : Option String
  semantic_confidence : Option ℚ
  matched_phrase : Option String
  risk_score : ℚ
  behaviors : List String
  bbox : ℤ × ℤ × ℤ × ℤ
  timestamp : ℚ
deriving Repr, DecidableEq

/-- Modelled from the spec: active behavior names of a track, as surfaced in
the fused object (test `test_fusion_without_semantic`). -/
def activeBehaviorNames (b : BehaviorFlags) : List String :=
  (if b.is_loitering then ["LOITERING"] else []) ++
  (if b.is_running then ["RUNNING"] else []) ++
  (if b.sudden_speed_change then ["SUDDEN_SPEED_CHANGE"] else []) ++
  (if b.direction_reversal then ["DIRECTION_REVERSAL"] else []) ++
  (if b.is_erratic then ["ERRATIC"] else [])

/-- Fold step keeping the incumbent detection unless a strictly more
confident one appears (so ties keep the earlier one). -/
def pickBest (a : SemanticDetection) (ds : List SemanticDetection) :
    SemanticDetection :=
  ds.foldl (fun b d2 => if b.confidence < d2.confidence then d2 else b) a

/-- Modelled from the spec: the single highest-confidence detection of a
list, ties broken by first-seen (spec §4.10). -/
def bestDetection : List SemanticDetection → Option SemanticDetection
  | [] => none
  | d :: ds => some (pickBest d ds)

/-- Behavior flags recorded for an identity among the analyses, defaulting
to the all-false flags when the identity has no analysis. -/
def behaviorFor (analyses : List TrackAnalysis) (tid : ℕ) : BehaviorFlags :=
  match analyses.find? (fun a => a.track_id = tid) with
  | some a => a.behavior
  | none => {}

/-- Modelled from the spec: `SemanticFusion.fuse` of the absent
`aegis.semantic` module — exactly one UnifiedObject per live identity,
combining the base detection, active behaviors, the identity's risk score,
and the single highest-confidence semantic detection when one exists
(spec §4.10). -/
def fuse (tracks : List Track) (track_analyses : List TrackAnalysis)
    (semantic_results : List (ℕ × List SemanticDetection))
    (risk_summary : FrameRiskSummary) (timestamp : ℚ) :
    List UnifiedObjectIntelligence :=
  tracks.map (fun tr =>
    let best :=
      match semantic_results.lookup tr.track_id with
      | some ds => bestDetection ds
      | none => none
    { track_id := tr.track_id
      base_class := tr.class_name
      confidence := tr.confidence
      semantic_label := best.map (fun d => d.phrase)
      semantic_confidence := best.map (fun d => d.confidence)
      matched_phrase := best.map (fun d => d.matched_text)
      risk_score := riskScoreFor risk_summary tr.track_id
      behaviors := activeBehaviorNames (behaviorFor track_analyses tr.track_id)
      bbox := tr.bbox
      timestamp := timestamp })

/-- The CLI flags of `main.py` that drive stage enablement
(`parse_args`). -/
structure CliArgs where
  enable_analysis : Bool := false
  enable_risk : Bool := false
  enable_alerts : Bool := false
  enable_api : Bool := false
  enable_semantic : Bool := false
deriving Repr, DecidableEq

/-- The `enabled` flags of the configuration built by `main.py`. -/
structure BuiltConfig where
  analysis_enabled : Bool
  risk_enabled : Bool
  alerts_enabled : Bool
  api_enabled : Bool
  semantic_enabled : Bool
deriving Repr, DecidableEq

/-- Shallow embedding of `build_config` (`src/main.py:320-346`): the
analysis stage is enabled by `--enable-analysis` or `--enable-risk`, the
risk stage by `--enable-risk` or `--enable-alerts`, alerts, API and
semantic each by their own flag. -/
def build_config (a : CliArgs) : BuiltConfig :=
  { analysis_enabled := a.enable_analysis || a.enable_risk
    risk_enabled := a.enable_risk || a.enable_alerts
    alerts_enabled := a.enable_alerts
    api_enabled := a.enable_api
    semantic_enabled := a.enable_semantic }

/-- Module availability flags of `main.py` (the try/except import guards). -/
structure Availability where
  analysis : Bool := true
  risk : Bool := true
  response : Bool := true
  semantic : Bool := true
deriving Repr, DecidableEq

/-- Shallow embedding of `enable_analysis` in `run_perception_pipeline`
(`src/main.py:462`). -/
def pipelineEnableAnalysis (av : Availability) (cfg : BuiltConfig) : Bool :=
  cfg.analysis_enabled && av.analysis

/-- Shallow embedding of `enable_risk` in `run_perception_pipeline`
(`src/main.py:481`). -/
def pipelineEnableRisk (av : Availability) (cfg : BuiltConfig) : Bool :=
  cfg.risk_enabled && av.risk && pipelineEnableAnalysis av cfg

/-- Shallow embedding of `enable_alerts` in `run_perception_pipeline`
(`src/main.py:514`). -/
def pipelineEnableAlerts (av : Availability) (cfg : BuiltConfig) : Bool :=
  cfg.alerts_enabled && av.response && pipelineEnableRisk av cfg

/-- Shallow embedding of `enable_semantic` in `run_perception_pipeline`
(`src/main.py:543`). -/
def pipelineEnableSemantic (av : Availability) (cfg : BuiltConfig) : Bool :=
  cfg.semantic_enabled && av.semantic && pipelineEnableRisk av cfg

/-- The zone argument passed to `alert_manager.process_risk` by the main
loop: the description of the first explanation factor, or the empty string
when there are none (`src/main.py:742`). -/
def mainLoopZoneArg (r : RiskScore) : String :=
  match r.explanation.factors with
  | [] => ""
  | f :: _ => f.description

/-- Shallow embedding of the Phase 4 alert loop of `run_perception_pipeline`
(`src/main.py:734-746`) over the frame's risk list: for each concerning
risk, call `process_risk` with the explanation summary as message, the first
factor's description as the zone, and the factor display names as factors;
collect the emitted alerts in order and thread the manager state. -/
def mainLoopProcessAlertsList (mgr : AlertManager) (risks : List RiskScore)
    (now : ℚ) : List Alert × AlertManager :=
  match risks with
  | [] => ([], mgr)
  | r :: rest =>
    if r.is_concerning then
      match process_risk mgr r.track_id r.level r.score
          r.explanation.summary (mainLoopZoneArg r)
          (r.explanation.factors.map (fun f => f.display_name)) now with
      | (some a, m2) =>
        let res := mainLoopProcessAlertsList m2 rest now
        (a :: res.1, res.2)
      | (none, m2) => mainLoopProcessAlertsList m2 rest now
    else mainLoopProcessAlertsList mgr rest now

/-- The Phase 4 alert loop applied to a frame risk summary
(`src/main.py:734-746` iterates `frame_risk.track_risks`). -/
def mainLoopProcessAlerts (mgr : AlertManager) (fr : FrameRiskSummary)
    (now : ℚ) : List Alert × AlertManager :=
  mainLoopProcessAlertsList mgr fr.track_risks now

lemma clamp01_nonneg (x : ℚ) : 0 ≤ clamp01 x :=
  le_min (by norm_num) (le_max_left 0 x)

lemma clamp01_le_one (x : ℚ) : clamp01 x ≤ 1 := min_le_left _ _

lemma emaUpdate_mem_unit (tc : TemporalConfig)
    (he1 : 0 ≤ tc.escalation_rate) (he2 : tc.escalation_rate ≤ 1)
    (hd1 : 0 ≤ tc.decay_rate) (hd2 : tc.decay_rate ≤ 1)
    (s raw : ℚ) (hs1 : 0 ≤ s) (hs2 : s ≤ 1) (hr1 : 0 ≤ raw) (hr2 : raw ≤ 1) :
    0 ≤ emaUpdate tc s raw ∧ emaUpdate tc s raw ≤ 1 := by
  unfold emaUpdate
  split_ifs with h
  · constructor <;> nlinarith
  · constructor <;> nlinarith

lemma compute_risk_score_mem_unit (cfg : RiskEngineConfig) (prior : Option ℚ)
    (T : TrackAnalysis) (C : CrowdMetrics)
    (he1 : 0 ≤ cfg.temporal.escalation_rate)
    (he2 : cfg.temporal.escalation_rate ≤ 1)
    (hd1 : 0 ≤ cfg.temporal.decay_rate) (hd2 : cfg.temporal.decay_rate ≤ 1)
    (hp : ∀ s, prior = some s → 0 ≤ s ∧ s ≤ 1) :
    0 ≤ (compute_risk cfg prior T C).score ∧
      (compute_risk cfg prior T C).score ≤ 1 := by
  have hraw1 : 0 ≤ rawScore cfg T C := clamp01_nonneg _
  have hraw2 : rawScore cfg T C ≤ 1 := clamp01_le_one _
  show 0 ≤ smoothedScore cfg prior (rawScore cfg T C) ∧
    smoothedScore cfg prior (rawScore cfg T C) ≤ 1
  unfold smoothedScore
  split_ifs with h
  · cases prior with
    | none => exact ⟨hraw1, hraw2⟩
    | some s =>
      have hs := hp s rfl
      exact emaUpdate_mem_unit cfg.temporal he1 he2 hd1 hd2 s _ hs.1 hs.2 hraw1 hraw2
  · exact ⟨hraw1, hraw2⟩

/-- C1: for every TrackAnalysis and CrowdMetrics input, on every frame, the
score of the RiskScore returned by `compute_risk` lies in [0,1]: the raw
weighted sum is clamped to [0,1], and the optional temporal smoothing (with
its rates in [0,1] and a prior EMA state maintained inside [0,1]) keeps the
returned score there. -/
theorem compute_risk_score_in_unit_interval (cfg : RiskEngineConfig)
    (prior : Option ℚ) (T : TrackAnalysis) (C : CrowdMetrics)
    (he1 : 0 ≤ cfg.temporal.escalation_rate)
    (he2 : cfg.temporal.escalation_rate ≤ 1)
    (hd1 : 0 ≤ cfg.temporal.decay_rate) (hd2 : cfg.temporal.decay_rate ≤ 1)
    (hp : ∀ s, prior = some s → 0 ≤ s ∧ s ≤ 1) :
    0 ≤ (compute_risk cfg prior T C).score ∧
      (compute_risk cfg prior T C).score ≤ 1 :=
  compute_risk_score_mem_unit cfg prior T C he1 he2 hd1 hd2 hp

/-- C1 witness: the bound instantiated at the default engine with temporal
smoothing on, prior state 1/2, and a concrete track and crowd snapshot. -/
theorem compute_risk_score_in_unit_interval_witness :
    (0 ≤ ({ use_temporal := true } : RiskEngineConfig).temporal.escalation_rate
      ∧ ({ use_temporal := true } : RiskEngineConfig).temporal.escalation_rate ≤ 1
      ∧ 0 ≤ ((1:ℚ)/2) ∧ ((1:ℚ)/2) ≤ 1)
    ∧ (0 ≤ (compute_risk { use_temporal := true } (some (1/2))
          { track_id := 1 } {}).score
        ∧ (compute_risk { use_temporal := true } (some (1/2))
          { track_id := 1 } {}).score ≤ 1) :=
  ⟨⟨by norm_num [TemporalConfig.escalation_rate],
    by norm_num [TemporalConfig.escalation_rate], by norm_num, by norm_num⟩,
   compute_risk_score_in_unit_interval { use_temporal := true } (some (1/2))
     { track_id := 1 } {} (by norm_num) (by norm_num) (by norm_num) (by norm_num)
     (fun s hs => by
       injection hs with h
       rw [← h]
       norm_num)⟩

/-- C2: with the default thresholds `{0.25, 0.50, 0.75}`, the level assigned
by `RiskLevel.from_score` is LOW exactly below 0.25, MEDIUM on [0.25, 0.50),
HIGH on [0.50, 0.75), CRITICAL at and above 0.75 (ties to the higher level),
and the score-to-level mapping is monotonic in the score. -/
theorem from_score_default_intervals_and_monotone :
    (∀ s : ℚ,
      (RiskLevel.from_score {} s = .LOW ↔ s < 1/4)
      ∧ (RiskLevel.from_score {} s = .MEDIUM ↔ 1/4 ≤ s ∧ s < 1/2)
      ∧ (RiskLevel.from_score {} s = .HIGH ↔ 1/2 ≤ s ∧ s < 3/4)
      ∧ (RiskLevel.from_score {} s = .CRITICAL ↔ 3/4 ≤ s))
    ∧ (∀ s t : ℚ, s ≤ t →
        (RiskLevel.from_score {} s).rank ≤ (RiskLevel.from_score {} t).rank) := by
  constructor
  · intro s
    unfold RiskLevel.from_score
    split_ifs with h1 h2 h3 <;> simp_all <;>
      first
        | linarith
        | (constructor <;> first | linarith | (intro h; linarith))
  · intro s t hst
    unfold RiskLevel.from_score
    split_ifs <;> simp [RiskLevel.rank] <;> exfalso <;> linarith

/-- C2 witness: the interval characterization and monotonicity instantiated
at concrete scores 0.3 and 0.8. -/
theorem from_score_default_witness :
    (RiskLevel.from_score {} (3/10) = .MEDIUM ↔ 1/4 ≤ (3/10:ℚ) ∧ (3/10:ℚ) < 1/2)
    ∧ ((3/10:ℚ) ≤ 4/5
      ∧ (RiskLevel.from_score {} (3/10)).rank ≤ (RiskLevel.from_score {} (4/5)).rank) :=
  ⟨(from_score_default_intervals_and_monotone.1 (3/10)).2.1,
   by norm_num,
   from_score_default_intervals_and_monotone.2 (3/10) (4/5) (by norm_num)⟩

lemma factorCandidates_names :
    ∀ (cfg : RiskEngineConfig) (T : TrackAnalysis) (C : CrowdMetrics),
    (factorCandidates cfg T C).map (fun f => f.name) =
      ["crowd_density", "direction_change", "erratic_motion",
       "loitering", "speed_anomaly", "zone_context"] :=
  fun _ _ _ => rfl

lemma factorEntries_names_sorted (cfg : RiskEngineConfig) (T : TrackAnalysis)
    (C : CrowdMetrics) :
    ((factorEntries cfg T C).map (fun f => f.name)).Sorted
      (fun a b : String => a < b) := by
  have h1 : ((factorCandidates cfg T C).map (fun f => f.name)).Pairwise
      (fun a b : String => a < b) := by
    rw [factorCandidates_names]
    have hch : List.Chain' (fun a b : String => a < b)
        ["crowd_density", "direction_change", "erratic_motion", "loitering",
         "speed_anomaly", "zone_context"] := by
      refine List.chain'_cons.mpr ⟨?_, List.chain'_cons.mpr ⟨?_,
        List.chain'_cons.mpr ⟨?_, List.chain'_cons.mpr ⟨?_,
        List.chain'_cons.mpr ⟨?_, List.chain'_singleton _⟩⟩⟩⟩⟩ <;>
        (rw [String.lt_iff_toList_lt]; decide)
    exact List.chain'_iff_pairwise.mp hch
  have h2 : (factorCandidates cfg T C).Pairwise
      (fun a b : Factor => a.name < b.name) := List.pairwise_map.mp h1
  have h3 : (factorEntries cfg T C).Pairwise
      (fun a b : Factor => a.name < b.name) :=
    h2.sublist (List.filter_sublist _)
  exact List.pairwise_map.mpr h3

/-- C3: `compute_risk` is deterministic — two calls with identical inputs on
an engine in the same state return identical RiskScores (equal score, level
and explanation) — and the explanation's factors are ordered by factor name,
not by map iteration order. -/
theorem compute_risk_deterministic (cfg : RiskEngineConfig) (prior : Option ℚ)
    (T : TrackAnalysis) (C : CrowdMetrics) :
    compute_risk cfg prior T C = compute_risk cfg prior T C ∧
    ((compute_risk cfg prior T C).explanation.factors.map
        (fun f => f.name)).Sorted (fun a b : String => a < b) :=
  ⟨rfl, factorEntries_names_sorted cfg T C⟩

lemma mem_of_lookup_eq_some (st : List (ℕ × ℚ)) (tid : ℕ) (s : ℚ)
    (h : st.lookup tid = some s) : (tid, s) ∈ st := by
  induction st with
  | nil => simp [List.lookup] at h
  | cons e rest ih =>
    rw [List.lookup] at h
    by_cases hb : tid == e.1
    · rcases e with ⟨k, v⟩
      simp only [hb, if_pos] at h
      simp only [beq_iff_eq] at hb
      simp only [Option.some.injEq] at h
      subst hb
      subst h
      exact List.mem_cons_self _ _
    · simp only [hb, if_neg, Bool.false_eq_true, not_false_eq_true] at h
      exact List.mem_cons_of_mem _ (ih h)

lemma foldr_max_is_ub (l : List ℚ) : ∀ x ∈ l, x ≤ l.foldr max 0 := by
  induction l with
  | nil =>
    intro x hx
    simp at hx
  | cons a rest ih =>
    intro x hx
    rcases List.mem_cons.mp hx with rfl | hx2
    · exact le_max_left _ _
    · exact le_trans (ih x hx2) (le_max_right _ _)

lemma foldr_max_mem (l : List ℚ) (hne : l ≠ []) (h0 : ∀ x ∈ l, 0 ≤ x) :
    l.foldr max 0 ∈ l := by
  induction l with
  | nil => exact absurd rfl hne
  | cons a rest ih =>
    cases rest with
    | nil =>
      have ha := h0 a (List.mem_cons_self _ _)
      simp [max_eq_left ha]
    | cons b rest2 =>
      have hrec : (b :: rest2).foldr max (0:ℚ) ∈ (b :: rest2) :=
        ih (by simp) (fun x hx => h0 x (List.mem_cons_of_mem _ hx))
      by_cases hc : a ≤ (b :: rest2).foldr max 0
      · rw [List.foldr_cons, max_eq_right hc]
        exact List.mem_cons_of_mem _ hrec
      · push_neg at hc
        rw [List.foldr_cons, max_eq_left hc.le]
        exact List.mem_cons_self _ _

/-- C4: `compute_frame_risks` returns one RiskScore per input track; its
`max_risk_score` is the maximum of the per-track scores (an upper bound that
is attained whenever the track list is non-empty); each per-track
`is_concerning` flag holds exactly when the level is MEDIUM or higher; and
`concerning_tracks` counts exactly the concerning RiskScores. -/
theorem compute_frame_risks_summary (cfg : RiskEngineConfig)
    (st : List (ℕ × ℚ)) (tracks : List TrackAnalysis) (C : CrowdMetrics)
    (fid : ℕ) (ts : ℚ) (S : FrameRiskSummary)
    (he1 : 0 ≤ cfg.temporal.escalation_rate)
    (he2 : cfg.temporal.escalation_rate ≤ 1)
    (hd1 : 0 ≤ cfg.temporal.decay_rate) (hd2 : cfg.temporal.decay_rate ≤ 1)
    (hst : ∀ e ∈ st, 0 ≤ e.2 ∧ e.2 ≤ 1)
    (hS : S = compute_frame_risks cfg st tracks C fid ts) :
    S.track_risks.length = tracks.length
    ∧ (∀ r ∈ S.track_risks, r.score ≤ S.max_risk_score)
    ∧ (tracks ≠ [] → ∃ r ∈ S.track_risks, S.max_risk_score = r.score)
    ∧ (∀ r ∈ S.track_risks, (r.is_concerning = true ↔ 1 ≤ r.level.rank))
    ∧ S.concerning_tracks = S.track_risks.countP (fun r => r.is_concerning) := by
  subst hS
  have hbound : ∀ T : TrackAnalysis,
      0 ≤ (compute_risk cfg (priorOf st T.track_id) T C).score ∧
        (compute_risk cfg (priorOf st T.track_id) T C).score ≤ 1 := by
    intro T
    refine compute_risk_score_mem_unit cfg _ T C he1 he2 hd1 hd2 ?_
    intro s hs
    exact hst (T.track_id, s) (mem_of_lookup_eq_some st T.track_id s hs)
  refine ⟨?_, ?_, ?_, ?_, ?_⟩
  · simp [compute_frame_risks]
  · intro r hr
    simp only [compute_frame_risks] at hr ⊢
    exact foldr_max_is_ub _ r.score (List.mem_map_of_mem _ hr)
  · intro hne
    simp only [compute_frame_risks]
    have hmem := foldr_max_mem
      ((tracks.map (fun T => compute_risk cfg (priorOf st T.track_id) T C)).map
        (fun r => r.score))
      (by simpa using hne)
      (by
        intro x hx
        obtain ⟨r, hr, rfl⟩ := List.mem_map.mp hx
        obtain ⟨T, _, rfl⟩ := List.mem_map.mp hr
        exact (hbound T).1)
    obtain ⟨r, hr, hsc⟩ := List.mem_map.mp hmem
    exact ⟨r, hr, hsc.symm⟩
  · intro r hr
    simp only [compute_frame_risks] at hr
    obtain ⟨T, _, rfl⟩ := List.mem_map.mp hr
    simp [compute_risk]
  · simp only [compute_frame_risks]
    apply List.countP_congr
    intro r hr
    obtain ⟨T, _, rfl⟩ := List.mem_map.mp hr
    simp [compute_risk]

/-- C4 witness: the frame-level aggregation instantiated at the default
engine, empty EMA state and a single concrete track. -/
theorem compute_frame_risks_summary_witness :
    ((compute_frame_risks {} [] [{ track_id := 1 }] {} 1 1).track_risks.length
        = [({ track_id := 1 } : TrackAnalysis)].length)
    ∧ (([({ track_id := 1 } : TrackAnalysis)] : List TrackAnalysis) ≠ []
        → ∃ r ∈ (compute_frame_risks {} [] [{ track_id := 1 }] {} 1 1).track_risks,
          (compute_frame_risks {} [] [{ track_id := 1 }] {} 1 1).max_risk_score
            = r.score) := by
  have h := compute_frame_risks_summary {} [] [{ track_id := 1 }] {} 1 1
    (compute_frame_risks {} [] [{ track_id := 1 }] {} 1 1)
    (by norm_num [TemporalConfig.escalation_rate])
    (by norm_num [TemporalConfig.escalation_rate])
    (by norm_num [TemporalConfig.decay_rate])
    (by norm_num [TemporalConfig.decay_rate])
    (by simp) rfl
  exact ⟨h.1, h.2.2.1⟩

lemma lookup_recordAlert_self (m : List (ℕ × ℚ)) (tid : ℕ) (now : ℚ) :
    (recordAlert m tid now).lookup tid = some now := by
  simp [recordAlert, List.lookup]

lemma lookup_filter_ne (m : List (ℕ × ℚ)) (tid tid2 : ℕ) (h : tid2 ≠ tid) :
    (m.filter (fun e => e.1 ≠ tid)).lookup tid2 = m.lookup tid2 := by
  induction m with
  | nil => simp
  | cons e rest ih =>
    by_cases h1 : e.1 = tid
    · have hpred : (fun e : ℕ × ℚ => decide (e.1 ≠ tid)) e = false := by
        simp [h1]
      rw [List.filter_cons_of_neg (by simp [h1])]
      rw [ih]
      rw [List.lookup]
      have : (tid2 == e.1) = false := by
        simp [h1, h]
      rw [this]
    · rw [List.filter_cons_of_pos (by simp [h1])]
      rw [List.lookup, List.lookup]
      by_cases h2 : tid2 == e.1
      · rw [h2]
      · simp only [h2, Bool.false_eq_true, if_neg, not_false_eq_true]
        exact ih

lemma lookup_recordAlert_other (m : List (ℕ × ℚ)) (tid : ℕ) (now : ℚ)
    (tid2 : ℕ) (h : tid2 ≠ tid) :
    (recordAlert m tid now).lookup tid2 = m.lookup tid2 := by
  unfold recordAlert
  rw [List.lookup]
  have hne : (tid2 == tid) = false := by simp [h]
  rw [hne]
  exact lookup_filter_ne m tid tid2 h

lemma process_risk_isSome_iff (mgr : AlertManager) (tid : ℕ)
    (lvl : RiskLevel) (sc : ℚ) (msg zone : String) (fs : List String)
    (now : ℚ) :
    (process_risk mgr tid lvl sc msg zone fs now).1.isSome = true ↔
      (mgr.config.enabled = true
        ∧ mgr.config.min_level.priority ≤ (AlertLevel.from_risk_level lvl).priority
        ∧ cooldownOk mgr tid now = true) := by
  unfold process_risk
  cases hen : mgr.config.enabled
  · simp [hen]
  · by_cases hpr : (AlertLevel.from_risk_level lvl).priority
        < mgr.config.min_level.priority
    · simp only [hen, Bool.not_true, Bool.false_eq_true, if_neg,
        not_false_eq_true, if_pos hpr, Option.isSome_none, false_iff,
        not_and, true_and]
      intro hge
      omega
    · cases hcd : cooldownOk mgr tid now
      · simp [hen, hpr, hcd]
      · simp [hen, hpr, hcd]
        omega

lemma process_risk_emitted (mgr : AlertManager) (tid : ℕ) (lvl : RiskLevel)
    (sc : ℚ) (msg zone : String) (fs : List String) (now : ℚ) (a : Alert)
    (ha : (process_risk mgr tid lvl sc msg zone fs now).1 = some a) :
    a = { event_id := "evt_" ++ toString mgr.next_event, track_id := tid,
          level := AlertLevel.from_risk_level lvl, risk_score := sc,
          message := msg, zone := zone, factors := fs, t_created := now } := by
  unfold process_risk at ha
  cases hen : mgr.config.enabled
  · simp [hen] at ha
  · by_cases hpr : (AlertLevel.from_risk_level lvl).priority
        < mgr.config.min_level.priority
    · simp [hen, hpr] at ha
    · cases hcd : cooldownOk mgr tid now
      · simp [hen, hpr, hcd] at ha
      · simp [hen, hpr, hcd] at ha
        exact ha.symm

lemma process_risk_config_eq (mgr : AlertManager) (tid : ℕ) (lvl : RiskLevel)
    (sc : ℚ) (msg zone : String) (fs : List String) (now : ℚ) :
    (process_risk mgr tid lvl sc msg zone fs now).2.config = mgr.config := by
  unfold process_risk
  split_ifs <;> simp [apply_ite]

lemma process_risk_lookup_self (mgr : AlertManager) (tid : ℕ)
    (lvl : RiskLevel) (sc : ℚ) (msg zone : String) (fs : List String)
    (now : ℚ) (a : Alert)
    (ha : (process_risk mgr tid lvl sc msg zone fs now).1 = some a) :
    (process_risk mgr tid lvl sc msg zone fs now).2.last_alert.lookup tid
      = some now := by
  unfold process_risk at ha ⊢
  cases hen : mgr.config.enabled
  · simp [hen] at ha
  · by_cases hpr : (AlertLevel.from_risk_level lvl).priority
        < mgr.config.min_level.priority
    · simp [hen, hpr] at ha
    · cases hcd : cooldownOk mgr tid now
      · simp [hen, hpr, hcd] at ha
      · simp [hen, hpr, hcd]
        exact lookup_recordAlert_self mgr.last_alert tid now

lemma process_risk_lookup_other (mgr : AlertManager) (tid : ℕ)
    (lvl : RiskLevel) (sc : ℚ) (msg zone : String) (fs : List String)
    (now : ℚ) (tid2 : ℕ) (h2 : tid2 ≠ tid) :
    (process_risk mgr tid lvl sc msg zone fs now).2.last_alert.lookup tid2
      = mgr.last_alert.lookup tid2 := by
  unfold process_risk
  cases hen : mgr.config.enabled
  · simp [hen]
  · by_cases hpr : (AlertLevel.from_risk_level lvl).priority
        < mgr.config.min_level.priority
    · simp [hen, hpr]
    · cases hcd : cooldownOk mgr tid now
      · simp [hen, hpr, hcd]
      · simp [hen, hpr, hcd]
        exact lookup_recordAlert_other mgr.last_alert tid now tid2 h2

/-- C5: `process_risk` returns an Alert exactly when the manager is enabled,
the alert level mapped from the risk level (LOW→INFO, MEDIUM→WARNING,
HIGH→HIGH, CRITICAL→CRITICAL) reaches the configured minimum priority, and
the per-identity cooldown admits it; an emission records the emission time
for that identity only, so a second call for the same identity inside the
cooldown window returns none while other identities are unaffected. -/
theorem process_risk_characterization (mgr : AlertManager) (tid : ℕ)
    (lvl : RiskLevel) (sc : ℚ) (msg zone : String) (fs : List String)
    (now : ℚ) :
    ((process_risk mgr tid lvl sc msg zone fs now).1.isSome = true ↔
      (mgr.config.enabled = true
        ∧ mgr.config.min_level.priority ≤ (AlertLevel.from_risk_level lvl).priority
        ∧ cooldownOk mgr tid now = true))
    ∧ (AlertLevel.from_risk_level .LOW = .INFO
        ∧ AlertLevel.from_risk_level .MEDIUM = .WARNING
        ∧ AlertLevel.from_risk_level .HIGH = .HIGH
        ∧ AlertLevel.from_risk_level .CRITICAL = .CRITICAL)
    ∧ (∀ a, (process_risk mgr tid lvl sc msg zone fs now).1 = some a →
        a.track_id = tid ∧ a.level = AlertLevel.from_risk_level lvl
        ∧ a.risk_score = sc ∧ a.t_created = now
        ∧ (process_risk mgr tid lvl sc msg zone fs now).2.last_alert.lookup tid
            = some now)
    ∧ (∀ tid2, tid2 ≠ tid →
        (process_risk mgr tid lvl sc msg zone fs now).2.last_alert.lookup tid2
          = mgr.last_alert.lookup tid2)
    ∧ (∀ a, (process_risk mgr tid lvl sc msg zone fs now).1 = some a →
        ∀ (lvl2 : RiskLevel) (sc2 : ℚ) (msg2 zone2 : String)
          (fs2 : List String) (now2 : ℚ),
          now2 - now < mgr.config.cooldown_seconds →
          (process_risk (process_risk mgr tid lvl sc msg zone fs now).2 tid
            lvl2 sc2 msg2 zone2 fs2 now2).1 = none) := by
  refine ⟨process_risk_isSome_iff mgr tid lvl sc msg zone fs now,
    ⟨rfl, rfl, rfl, rfl⟩, ?_, ?_, ?_⟩
  · intro a ha
    have he := process_risk_emitted mgr tid lvl sc msg zone fs now a ha
    subst he
    exact ⟨rfl, rfl, rfl, rfl,
      process_risk_lookup_self mgr tid lvl sc msg zone fs now _ ha⟩
  · intro tid2 h2
    exact process_risk_lookup_other mgr tid lvl sc msg zone fs now tid2 h2
  · intro a ha lvl2 sc2 msg2 zone2 fs2 now2 hlt
    have hlk := process_risk_lookup_self mgr tid lvl sc msg zone fs now a ha
    have hcfg := process_risk_config_eq mgr tid lvl sc msg zone fs now
    have hok : cooldownOk (process_risk mgr tid lvl sc msg zone fs now).2
        tid now2 = false := by
      unfold cooldownOk
      rw [hlk, hcfg]
      simp only [decide_eq_false_iff_not, not_le]
      exact hlt
    have hiff := process_risk_isSome_iff
      (process_risk mgr tid lvl sc msg zone fs now).2 tid lvl2 sc2 msg2 zone2
      fs2 now2
    rw [← Option.not_isSome_iff_eq_none]
    intro hsome
    have := hiff.mp hsome
    rw [hok] at this
    exact absurd this.2.2 (by simp)

/-- C5 witness: a fresh enabled manager emits for HIGH risk on identity 1 at
time 0 and records the emission time for that identity. -/
theorem process_risk_characterization_witness :
    (process_risk {} 1 .HIGH (1/2) "m" "z" [] 0).1
        = some { event_id := "evt_0", track_id := 1, level := .HIGH,
                 risk_score := 1/2, message := "m", zone := "z",
                 factors := [], t_created := 0 }
    ∧ (process_risk {} 1 .HIGH (1/2) "m" "z" [] 0).2.last_alert.lookup 1
        = some 0 := by
  have hfst : (process_risk {} 1 .HIGH (1/2) "m" "z" [] 0).1
      = some { event_id := "evt_0", track_id := 1, level := .HIGH,
               risk_score := 1/2, message := "m", zone := "z",
               factors := [], t_created := 0 } := by rfl
  exact ⟨hfst,
    ((process_risk_characterization {} 1 .HIGH (1/2) "m" "z" [] 0).2.2.1 _
      hfst).2.2.2.2⟩

lemma check_triggers_some_frame (cfg : SemanticTriggerConfig)
    (st : List (ℕ × ℚ)) (tracks : List TrackAnalysis)
    (risks : FrameRiskSummary) (uq : Option String) (f : Frame) (now : ℚ) :
    check_triggers cfg st tracks risks uq (some f) now
      = tracks.foldl (checkTriggerStep cfg f risks uq now) ([], st) := rfl

lemma triggerFor_user_query (cfg : SemanticTriggerConfig) (f : Frame)
    (fr : FrameRiskSummary) (q : String) (hq : q ≠ "") (T : TrackAnalysis) :
    triggerFor cfg f fr (some q) T =
      some ⟨T.track_id, .USER_QUERY, q, clampBBox f T.current_bbox⟩ := by
  simp [triggerFor, hq]

lemma check_triggers_user_query_aux (cfg : SemanticTriggerConfig) (f : Frame)
    (risks : FrameRiskSummary) (q : String) (hq : q ≠ "") (now : ℚ) :
    ∀ (tracks : List TrackAnalysis) (acc : List TriggerEvent × List (ℕ × ℚ)),
    (∀ T ∈ tracks, acc.2.lookup T.track_id = none) →
    (tracks.map (fun T => T.track_id)).Nodup →
    (tracks.foldl (checkTriggerStep cfg f risks (some q) now) acc).1
      = acc.1 ++ tracks.map (fun T =>
          ⟨T.track_id, .USER_QUERY, q, clampBBox f T.current_bbox⟩) := by
  intro tracks
  induction tracks with
  | nil =>
    intro acc _ _
    simp
  | cons T rest ih =>
    intro acc hfresh hnd
    rw [List.foldl_cons]
    have hstep : checkTriggerStep cfg f risks (some q) now acc T
        = (acc.1 ++ [⟨T.track_id, .USER_QUERY, q, clampBBox f T.current_bbox⟩],
           (T.track_id, now) :: acc.2) := by
      unfold checkTriggerStep
      rw [hfresh T (List.mem_cons_self _ _)]
      simp only [if_neg, Bool.false_eq_true, not_false_eq_true]
      rw [triggerFor_user_query cfg f risks q hq T]
    rw [hstep]
    have hnd2 : (rest.map (fun T => T.track_id)).Nodup := by
      simp only [List.map_cons, List.nodup_cons] at hnd
      exact hnd.2
    have hfresh2 : ∀ T2 ∈ rest,
        ((T.track_id, now) :: acc.2).lookup T2.track_id = none := by
      intro T2 hT2
      rw [List.lookup]
      have hne : (T2.track_id == T.track_id) = false := by
        simp only [List.map_cons, List.nodup_cons] at hnd
        have : T2.track_id ∈ rest.map (fun T => T.track_id) :=
          List.mem_map_of_mem _ hT2
        simp only [beq_eq_false_iff_ne, ne_eq]
        intro hEq
        exact hnd.1 (hEq ▸ this)
      rw [hne]
      exact hfresh T2 (List.mem_cons_of_mem _ hT2)
    rw [ih _ hfresh2 hnd2]
    simp

/-- C6: in a single `check_triggers` call on a fresh trigger, each track
yields at most one TriggerEvent chosen by descending source priority — a
non-empty user query produces a USER_QUERY event carrying that query for
every live track whatever its risk score and behavior flags; without a query
a risk score at or above the threshold produces a RISK_THRESHOLD event;
otherwise an anomalous behavior flag produces a BEHAVIOR_CHANGE event — and
a call without a frame returns an empty list regardless of state and
inputs. -/
theorem check_triggers_priority (cfg : SemanticTriggerConfig)
    (st : List (ℕ × ℚ)) (tracks : List TrackAnalysis)
    (risks : FrameRiskSummary) (uq : Option String) (q : String) (f : Frame)
    (T : TrackAnalysis) (now : ℚ) :
    ((check_triggers cfg st tracks risks uq none now).1 = [])
    ∧ (q ≠ "" → (tracks.map (fun Tr => Tr.track_id)).Nodup →
        (check_triggers cfg [] tracks risks (some q) (some f) now).1
          = tracks.map (fun Tr =>
              ⟨Tr.track_id, .USER_QUERY, q, clampBBox f Tr.current_bbox⟩))
    ∧ (cfg.risk_threshold_trigger ≤ riskScoreFor risks T.track_id →
        (check_triggers cfg [] [T] risks none (some f) now).1
          = [⟨T.track_id, .RISK_THRESHOLD, "suspicious activity",
              clampBBox f T.current_bbox⟩])
    ∧ (riskScoreFor risks T.track_id < cfg.risk_threshold_trigger →
        T.behavior.has_anomaly = true →
        (check_triggers cfg [] [T] risks none (some f) now).1
          = [⟨T.track_id, .BEHAVIOR_CHANGE, behaviorPrompt T.behavior,
              clampBBox f T.current_bbox⟩]) := by
  refine ⟨rfl, ?_, ?_, ?_⟩
  · intro hq hnd
    rw [check_triggers_some_frame]
    exact (check_triggers_user_query_aux cfg f risks q hq now tracks ([], [])
      (by intro Tr _; rfl) hnd).trans (by simp)
  · intro hge
    rw [check_triggers_some_frame, List.foldl_cons, List.foldl_nil]
    simp [checkTriggerStep, triggerFor, triggerNoQuery, hge]
  · intro hlt hanom
    rw [check_triggers_some_frame, List.foldl_cons, List.foldl_nil]
    unfold BehaviorFlags.has_anomaly at hanom
    simp [checkTriggerStep, triggerFor, triggerNoQuery, not_le.mpr hlt, hanom]

/-- A concrete loitering track used to instantiate the trigger priority
theorem. -/
def exampleTriggerTrack : TrackAnalysis :=
  { track_id := 1, behavior := { is_loitering := true } }

/-- The single concrete RiskScore record inside `exampleTriggerRisks`. -/
def exampleTriggerRiskScore : RiskScore :=
  { track_id := 1, score := 4/5, level := .CRITICAL,
    explanation := { summary := "s", factors := [] },
    is_concerning := true }

/-- A concrete frame risk summary assigning track 1 a score above the
default 0.6 trigger threshold. -/
def exampleTriggerRisks : FrameRiskSummary :=
  { frame_id := 0, timestamp := 0,
    track_risks := [exampleTriggerRiskScore],
    max_risk_level := .CRITICAL, max_risk_score := 4/5,
    concerning_tracks := 1, has_concerns := true }

/-- A concrete 640×480 frame. -/
def exampleTriggerFrame : Frame := { width := 640, height := 480 }

/-- C6 witness: a loitering track with risk score above the threshold and an
active user query "red jacket" yields exactly one USER_QUERY event carrying
that query. -/
theorem check_triggers_priority_witness :
    ("red jacket" ≠ ""
      ∧ ([exampleTriggerTrack].map (fun Tr => Tr.track_id)).Nodup)
    ∧ (check_triggers {} [] [exampleTriggerTrack] exampleTriggerRisks
        (some "red jacket") (some exampleTriggerFrame) 0).1
      = [⟨1, .USER_QUERY, "red jacket",
          clampBBox exampleTriggerFrame exampleTriggerTrack.current_bbox⟩] :=
  ⟨⟨by decide, by decide⟩, by
    have h := (check_triggers_priority {} [] [exampleTriggerTrack]
      exampleTriggerRisks none "red jacket" exampleTriggerFrame
      exampleTriggerTrack 0).2.1 (by decide) (by decide)
    simpa [exampleTriggerTrack] using h⟩

/-- C7: the prompt cache satisfies its round-trip law — `get_cached_result`
immediately after `cache_result` on the same `(prompt, image_hash)` key
returns the stored detections while the entry's age is within the TTL (and
the cache can hold at least one entry); a key never cached yields none; and
an entry whose age exceeds the TTL is reported expired, so the lookup no
longer returns it. -/
theorem prompt_cache_roundtrip (m : PromptManager) (p h : String)
    (v : List SemanticDetection) (now now2 : ℚ) :
    (now2 - now ≤ m.cache_ttl → 1 ≤ m.max_cache_size →
      get_cached_result (cache_result m p h v now) p h now2 = some v)
    ∧ (m.cache.lookup (p, h) = none → get_cached_result m p h now = none)
    ∧ (∀ e, m.cache.lookup (p, h) = some e →
        m.cache_ttl < now - e.timestamp →
        get_cached_result m p h now = none) := by
  refine ⟨?_, ?_, ?_⟩
  · intro hage hcap
    obtain ⟨k, hk⟩ : ∃ k, m.max_cache_size = k + 1 :=
      ⟨m.max_cache_size - 1, by omega⟩
    unfold get_cached_result cache_result
    simp only [hk, List.take_succ_cons, List.lookup]
    have hself : (((p, h) : String × String) == (p, h)) = true := by simp
    rw [hself]
    simp only [if_pos]
    have hexp : CacheEntry.is_expired ⟨v, now⟩ m.cache_ttl now2 = false := by
      unfold CacheEntry.is_expired
      exact decide_eq_false (not_lt.mpr hage)
    rw [hexp]
    simp
  · intro hnone
    unfold get_cached_result
    rw [hnone]
  · intro e he hexp
    unfold get_cached_result
    rw [he]
    have hexp2 : CacheEntry.is_expired e m.cache_ttl now = true := by
      unfold CacheEntry.is_expired
      exact decide_eq_true hexp
    show (if e.is_expired m.cache_ttl now = true then none
      else some e.result) = none
    rw [hexp2]
    simp

/-- C7 witness: storing detections under ("p", "h") at time 0 in a fresh
manager and reading them back at time 100 (inside the 300 s TTL) returns
them, while a key never cached yields none. -/
theorem prompt_cache_roundtrip_witness :
    ((100:ℚ) - 0 ≤ ({} : PromptManager).cache_ttl
      ∧ 1 ≤ ({} : PromptManager).max_cache_size
      ∧ ({} : PromptManager).cache.lookup ("q", "g") = none)
    ∧ get_cached_result (cache_result {} "p" "h" [] 0) "p" "h" 100 = some []
    ∧ get_cached_result {} "q" "g" 0 = none := by
  refine ⟨⟨by norm_num [PromptManager.cache_ttl], by
      norm_num [PromptManager.max_cache_size], rfl⟩, ?_, ?_⟩
  · exact (prompt_cache_roundtrip {} "p" "h" [] 0 100).1
      (by norm_num [PromptManager.cache_ttl])
      (by norm_num [PromptManager.max_cache_size])
  · exact (prompt_cache_roundtrip {} "q" "g" [] 0 0).2.1 rfl

lemma pickBest_spec : ∀ (ds : List SemanticDetection) (a : SemanticDetection),
    a.confidence ≤ (pickBest a ds).confidence
    ∧ (∀ x ∈ ds, x.confidence ≤ (pickBest a ds).confidence)
    ∧ (pickBest a ds = a
        ∨ ∃ pre post, ds = pre ++ (pickBest a ds) :: post
            ∧ a.confidence < (pickBest a ds).confidence
            ∧ ∀ x ∈ pre, x.confidence < (pickBest a ds).confidence) := by
  intro ds
  induction ds with
  | nil =>
    intro a
    exact ⟨le_refl _, by simp, Or.inl rfl⟩
  | cons d rest ih =>
    intro a
    have hstep : pickBest a (d :: rest)
        = pickBest (if a.confidence < d.confidence then d else a) rest := rfl
    by_cases hd : a.confidence < d.confidence
    · rw [hstep, if_pos hd]
      obtain ⟨h1, h2, h3⟩ := ih d
      refine ⟨le_trans (le_of_lt hd) h1, ?_, ?_⟩
      · intro x hx
        rcases List.mem_cons.mp hx with rfl | hx2
        · exact h1
        · exact h2 x hx2
      · rcases h3 with heq | ⟨pre, post, hsplit, hlt, hpre⟩
        · right
          exact ⟨[], rest, by rw [heq]; simp, by rw [heq]; exact hd, by simp⟩
        · right
          refine ⟨d :: pre, post, by exact congrArg (List.cons d) hsplit, lt_trans hd hlt, ?_⟩
          intro x hx
          rcases List.mem_cons.mp hx with rfl | hx2
          · exact hlt
          · exact hpre x hx2
    · rw [hstep, if_neg hd]
      obtain ⟨h1, h2, h3⟩ := ih a
      push_neg at hd
      refine ⟨h1, ?_, ?_⟩
      · intro x hx
        rcases List.mem_cons.mp hx with rfl | hx2
        · exact le_trans hd h1
        · exact h2 x hx2
      · rcases h3 with heq | ⟨pre, post, hsplit, hlt, hpre⟩
        · exact Or.inl heq
        · right
          refine ⟨d :: pre, post, by exact congrArg (List.cons d) hsplit, hlt, ?_⟩
          intro x hx
          rcases List.mem_cons.mp hx with rfl | hx2
          · exact lt_of_le_of_lt hd hlt
          · exact hpre x hx2

lemma bestDetection_spec (ds : List SemanticDetection) (hne : ds ≠ []) :
    ∃ b, bestDetection ds = some b
      ∧ (∀ x ∈ ds, x.confidence ≤ b.confidence)
      ∧ ∃ pre post, ds = pre ++ b :: post
          ∧ ∀ x ∈ pre, x.confidence < b.confidence := by
  cases ds with
  | nil => exact absurd rfl hne
  | cons d rest =>
    obtain ⟨h1, h2, h3⟩ := pickBest_spec rest d
    refine ⟨pickBest d rest, rfl, ?_, ?_⟩
    · intro x hx
      rcases List.mem_cons.mp hx with rfl | hx2
      · exact h1
      · exact h2 x hx2
    · rcases h3 with heq | ⟨pre, post, hsplit, hlt, hpre⟩
      · exact ⟨[], rest, by rw [heq]; simp, by simp⟩
      · refine ⟨d :: pre, post, by exact congrArg (List.cons d) hsplit, ?_⟩
        intro x hx
        rcases List.mem_cons.mp hx with rfl | hx2
        · exact hlt
        · exact hpre x hx2

/-- C8: `fuse` emits exactly one UnifiedObject per live identity, carrying
the base class, confidence and bbox of that identity's track, its risk score
from the risk summary, and its active behavior names; when the semantic
results hold detections for that identity, the object's semantic fields come
from the single detection with the highest confidence, ties broken by
first-seen; with no semantic result the semantic fields are none. -/
theorem fuse_one_object_per_identity (tracks : List Track)
    (analyses : List TrackAnalysis)
    (sem : List (ℕ × List SemanticDetection)) (risks : FrameRiskSummary)
    (ts : ℚ) :
    (fuse tracks analyses sem risks ts).length = tracks.length
    ∧ ∀ (i : ℕ) (hi : i < tracks.length)
        (ho : i < (fuse tracks analyses sem risks ts).length)
        (obj : UnifiedObjectIntelligence) (tr : Track),
      (fuse tracks analyses sem risks ts)[i] = obj → tracks[i] = tr →
      obj.track_id = tr.track_id
      ∧ obj.base_class = tr.class_name
      ∧ obj.confidence = tr.confidence
      ∧ obj.bbox = tr.bbox
      ∧ obj.timestamp = ts
      ∧ obj.risk_score = riskScoreFor risks tr.track_id
      ∧ obj.behaviors = activeBehaviorNames (behaviorFor analyses tr.track_id)
      ∧ ((sem.lookup tr.track_id = none ∨ sem.lookup tr.track_id = some []) →
          obj.semantic_label = none ∧ obj.semantic_confidence = none
          ∧ obj.matched_phrase = none)
      ∧ (∀ ds, sem.lookup tr.track_id = some ds → ds ≠ [] →
          ∃ best pre post, ds = pre ++ best :: post
            ∧ (∀ x ∈ ds, x.confidence ≤ best.confidence)
            ∧ (∀ x ∈ pre, x.confidence < best.confidence)
            ∧ obj.semantic_label = some best.phrase
            ∧ obj.semantic_confidence = some best.confidence
            ∧ obj.matched_phrase = some best.matched_text) := by
  refine ⟨by simp [fuse], ?_⟩
  intro i hi ho obj tr hobj htr
  subst hobj
  subst htr
  have hmap : (fuse tracks analyses sem risks ts)[i]
      = (fun tr : Track =>
          let best :=
            match sem.lookup tr.track_id with
            | some ds => bestDetection ds
            | none => none
          ({ track_id := tr.track_id
             base_class := tr.class_name
             confidence := tr.confidence
             semantic_label := best.map (fun d => d.phrase)
             semantic_confidence := best.map (fun d => d.confidence)
             matched_phrase := best.map (fun d => d.matched_text)
             risk_score := riskScoreFor risks tr.track_id
             behaviors := activeBehaviorNames (behaviorFor analyses tr.track_id)
             bbox := tr.bbox
             timestamp := ts } : UnifiedObjectIntelligence)) tracks[i] := by
    unfold fuse
    exact List.getElem_map _
  refine ⟨by rw [hmap], by rw [hmap], by rw [hmap], by rw [hmap],
    by rw [hmap], by rw [hmap], by rw [hmap], ?_, ?_⟩
  · intro hcase
    rcases hcase with hl | hl <;>
      refine ⟨?_, ?_, ?_⟩ <;> rw [hmap] <;> simp [hl, bestDetection]
  · intro ds hds hne
    obtain ⟨b, hb, hub, pre, post, hsplit, hpre⟩ := bestDetection_spec ds hne
    refine ⟨b, pre, post, hsplit, hub, hpre, ?_, ?_, ?_⟩ <;>
      rw [hmap] <;> simp [hds, hb]

/-- A concrete tracked person used to instantiate the fusion theorem. -/
def exampleFusionTrack : Track :=
  { track_id := 1, class_name := "Person", confidence := 23/25,
    bbox := (100, 100, 200, 300) }

/-- A lower-confidence semantic detection. -/
def exampleFusionDetLow : SemanticDetection :=
  { bbox := (100, 100, 200, 300), confidence := 3/5, phrase := "person",
    matched_text := "test" }

/-- A higher-confidence semantic detection. -/
def exampleFusionDetHigh : SemanticDetection :=
  { bbox := (100, 100, 200, 300), confidence := 9/10,
    phrase := "person with backpack", matched_text := "test" }

/-- An empty frame risk summary for the fusion witness. -/
def exampleFusionRisks : FrameRiskSummary :=
  { frame_id := 0, timestamp := 0, track_risks := [],
    max_risk_level := .LOW, max_risk_score := 0,
    concerning_tracks := 0, has_concerns := false }

/-- The fused output on the concrete fusion inputs. -/
def exampleFusionOutput : List UnifiedObjectIntelligence :=
  fuse [exampleFusionTrack] []
    [(1, [exampleFusionDetLow, exampleFusionDetHigh])] exampleFusionRisks 1

/-- C8 witness: fusing one track with two semantic detections yields one
object whose semantic fields come from a highest-confidence detection of the
list. -/
theorem fuse_one_object_per_identity_witness :
    (exampleFusionOutput.length = 1
      ∧ [(1, [exampleFusionDetLow, exampleFusionDetHigh])].lookup
          exampleFusionTrack.track_id
        = some [exampleFusionDetLow, exampleFusionDetHigh]
      ∧ ([exampleFusionDetLow, exampleFusionDetHigh]
          : List SemanticDetection) ≠ [])
    ∧ (∃ best pre post,
        [exampleFusionDetLow, exampleFusionDetHigh] = pre ++ best :: post
        ∧ (∀ x ∈ [exampleFusionDetLow, exampleFusionDetHigh],
            x.confidence ≤ best.confidence)
        ∧ (∀ x ∈ pre, x.confidence < best.confidence)
        ∧ (exampleFusionOutput.get ⟨0, by decide⟩).semantic_label
            = some best.phrase
        ∧ (exampleFusionOutput.get ⟨0, by decide⟩).semantic_confidence
            = some best.confidence
        ∧ (exampleFusionOutput.get ⟨0, by decide⟩).matched_phrase
            = some best.matched_text) := by
  refine ⟨⟨by decide, by rfl, by simp⟩, ?_⟩
  have h := (fuse_one_object_per_identity [exampleFusionTrack] []
    [(1, [exampleFusionDetLow, exampleFusionDetHigh])] exampleFusionRisks
    1).2 0 (by decide) (by decide)
    (exampleFusionOutput.get ⟨0, by decide⟩) exampleFusionTrack rfl rfl
  exact h.2.2.2.2.2.2.2.2 [exampleFusionDetLow, exampleFusionDetHigh]
    (by rfl) (by simp)

/-- C9: in `build_config` the enabled flags form an implication chain —
`analysis.enabled = enable_analysis OR enable_risk` and
`risk.enabled = enable_risk OR enable_alerts`, so `--enable-risk` alone
silently enables the analysis stage and `--enable-alerts` alone silently
enables the risk stage; `--enable-semantic` alone enables no other stage;
and in `run_perception_pipeline` the semantic layer runs only when the risk
stage is also enabled. -/
theorem build_config_enable_chain (a : CliArgs) (av : Availability) :
    ((build_config a).analysis_enabled = (a.enable_analysis || a.enable_risk))
    ∧ ((build_config a).risk_enabled = (a.enable_risk || a.enable_alerts))
    ∧ (a.enable_analysis = false → a.enable_risk = true →
        (build_config a).analysis_enabled = true)
    ∧ (a.enable_risk = false → a.enable_alerts = true →
        (build_config a).risk_enabled = true)
    ∧ (a.enable_analysis = false → a.enable_risk = false →
        a.enable_alerts = false → a.enable_api = false →
        (build_config a).analysis_enabled = false
        ∧ (build_config a).risk_enabled = false
        ∧ (build_config a).alerts_enabled = false
        ∧ (build_config a).api_enabled = false)
    ∧ (pipelineEnableSemantic av (build_config a) = true →
        pipelineEnableRisk av (build_config a) = true) := by
  refine ⟨rfl, rfl, ?_, ?_, ?_, ?_⟩
  · intro h1 h2
    simp [build_config, h1, h2]
  · intro h1 h2
    simp [build_config, h1, h2]
  · intro h1 h2 h3 h4
    simp [build_config, h1, h2, h3, h4]
  · intro h
    simp only [pipelineEnableSemantic, Bool.and_eq_true] at h
    exact h.2

/-- C9 witness: passing only `--enable-risk` enables the analysis stage, and
passing only `--enable-alerts` enables the risk stage. -/
theorem build_config_enable_chain_witness :
    ((build_config ⟨false, true, false, false, false⟩).analysis_enabled = true)
    ∧ ((build_config ⟨false, false, true, false, false⟩).risk_enabled = true) :=
  ⟨(build_config_enable_chain ⟨false, true, false, false, false⟩ {}).2.2.1
      rfl rfl,
   (build_config_enable_chain ⟨false, false, true, false, false⟩ {}).2.2.2.1
      rfl rfl⟩

lemma mainLoopZoneArg_eq_headD (r : RiskScore) :
    mainLoopZoneArg r
      = ((r.explanation.factors.map (fun f => f.description)).headD "") := by
  unfold mainLoopZoneArg
  cases r.explanation.factors <;> rfl

lemma mainLoopProcessAlertsList_mem :
    ∀ (risks : List RiskScore) (mgr : AlertManager) (now : ℚ),
    ∀ a ∈ (mainLoopProcessAlertsList mgr risks now).1,
      ∃ r ∈ risks, r.is_concerning = true
        ∧ a.track_id = r.track_id
        ∧ a.message = r.explanation.summary
        ∧ a.zone = ((r.explanation.factors.map (fun f => f.description)).headD "")
        ∧ a.factors = r.explanation.factors.map (fun f => f.display_name) := by
  intro risks
  induction risks with
  | nil =>
    intro mgr now a ha
    simp [mainLoopProcessAlertsList] at ha
  | cons r rest ih =>
    intro mgr now a ha
    unfold mainLoopProcessAlertsList at ha
    by_cases hc : r.is_concerning = true
    · simp only [hc, if_pos] at ha
      rcases hres : process_risk mgr r.track_id r.level r.score
          r.explanation.summary (mainLoopZoneArg r)
          (r.explanation.factors.map (fun f => f.display_name)) now
        with ⟨fst, m2⟩
      rw [hres] at ha
      cases fst with
      | none =>
        obtain ⟨r2, hr2, hprops⟩ := ih m2 now a ha
        exact ⟨r2, List.mem_cons_of_mem _ hr2, hprops⟩
      | some a2 =>
        simp only [List.mem_cons] at ha
        rcases ha with heq | ha2
        · have hA := process_risk_emitted mgr r.track_id r.level r.score
            r.explanation.summary (mainLoopZoneArg r)
            (r.explanation.factors.map (fun f => f.display_name)) now a2
            (by rw [hres])
          subst heq
          subst hA
          exact ⟨r, List.mem_cons_self _ _, hc, rfl, rfl,
            mainLoopZoneArg_eq_headD r, rfl⟩
        · obtain ⟨r2, hr2, hprops⟩ := ih m2 now a ha2
          exact ⟨r2, List.mem_cons_of_mem _ hr2, hprops⟩
    · simp only [hc, if_neg, Bool.false_eq_true, not_false_eq_true] at ha
      obtain ⟨r2, hr2, hprops⟩ := ih mgr now a ha
      exact ⟨r2, List.mem_cons_of_mem _ hr2, hprops⟩

/-- C10: every Alert emitted by the main pipeline alert loop gets as its
`zone` argument not a zone lookup but the description string of the first
factor of the risk explanation (or the empty string when there are no
factors), and as its `factors` argument the factors' display names. -/
theorem mainLoop_alert_zone_and_factors (mgr : AlertManager)
    (fr : FrameRiskSummary) (now : ℚ) :
    ∀ a ∈ (mainLoopProcessAlerts mgr fr now).1,
      ∃ r ∈ fr.track_risks, r.is_concerning = true
        ∧ a.track_id = r.track_id
        ∧ a.message = r.explanation.summary
        ∧ a.zone = ((r.explanation.factors.map (fun f => f.description)).headD "")
        ∧ a.factors = r.explanation.factors.map (fun f => f.display_name) :=
  mainLoopProcessAlertsList_mem fr.track_risks mgr now

/-- A concrete explanation factor for the alert-loop witness. -/
def exampleLoopFactor : Factor :=
  { name := "loitering", display_name := "Loitering", contribution := 1/8,
    description := "Sustained loitering near entrance" }

/-- A concrete concerning risk with one explanation factor. -/
def exampleLoopRisk : RiskScore :=
  { track_id := 7, score := 11/20, level := .HIGH,
    explanation := { summary := "High risk", factors := [exampleLoopFactor] },
    is_concerning := true }

/-- A frame risk summary holding just the concerning risk above. -/
def exampleLoopSummary : FrameRiskSummary :=
  { frame_id := 3, timestamp := 1, track_risks := [exampleLoopRisk],
    max_risk_level := .HIGH, max_risk_score := 11/20,
    concerning_tracks := 1, has_concerns := true }

/-- The alert the loop emits on that summary with a fresh manager at t=2. -/
def exampleLoopAlert : Alert :=
  { event_id := "evt_" ++ toString (0:ℕ), track_id := 7, level := .HIGH,
    risk_score := 11/20, message := "High risk",
    zone := "Sustained loitering near entrance", factors := ["Loitering"],
    t_created := 2 }

/-- C10 witness: on a frame with one concerning risk carrying one factor,
the emitted alert's zone is that factor's description and its factors list
is the display name list. -/
theorem mainLoop_alert_zone_and_factors_witness :
    exampleLoopAlert ∈ (mainLoopProcessAlerts {} exampleLoopSummary 2).1
    ∧ ∃ r ∈ exampleLoopSummary.track_risks, r.is_concerning = true
        ∧ exampleLoopAlert.track_id = r.track_id
        ∧ exampleLoopAlert.message = r.explanation.summary
        ∧ exampleLoopAlert.zone
            = ((r.explanation.factors.map (fun f => f.description)).headD "")
        ∧ exampleLoopAlert.factors
            = r.explanation.factors.map (fun f => f.display_name) := by
  have hList : (mainLoopProcessAlerts {} exampleLoopSummary 2).1
      = [exampleLoopAlert] := rfl
  have hm : exampleLoopAlert ∈ (mainLoopProcessAlerts {} exampleLoopSummary 2).1 := by
    rw [hList]
    exact List.mem_singleton.mpr rfl
  exact ⟨hm, mainLoop_alert_zone_and_factors {} exampleLoopSummary 2
    exampleLoopAlert hm⟩

end AegisAI
